import Mathlib

/-!
Shallow embedding of the middleware ordered-group / deserialize-step code and
of the generated waiter code of the smithy-go repository.

Sources embedded:
  * src/middleware/ordered_group.go    (relativeOrder, orderedIDs)
  * src/middleware/step_deserialize.go (DeserializeStep and its handler chain)
  * src/unnamed/part_001               (Waiters codegen: the Go code emitted by
    generateWaiterInvoker / generateRetryable / writeWaiterComparator; the
    embedding models the emitted Go program text)

Go features are modelled as follows: a method that mutates its receiver
becomes a function returning the error value together with the receiver's
state after the call; `map[string]T` becomes an association list with
first-match lookup, update-in-place insert and filtering delete; a Go `nil`
interface value is `Option.none`; error values are the `fmt.Errorf` message
strings the source builds.
-/

/-- Go `map[string]V` lookup `m[k]`: the first binding of `k`, `none` when
absent (the Go zero value of an interface type is nil). -/
def goLookup {α : Type} (m : List (String × α)) (k : String) : Option α :=
  match m with
  | [] => none
  | (k', v) :: rest => if k' = k then some v else goLookup rest k

/-- Go map assignment `m[k] = v`: replaces the existing binding in place, or
appends a new one. -/
def goInsert {α : Type} (m : List (String × α)) (k : String) (v : α) :
    List (String × α) :=
  match m with
  | [] => [(k, v)]
  | (k', v') :: rest =>
    if k' = k then (k, v) :: rest else (k', v') :: goInsert rest k v

/-- Go `delete(m, k)`. -/
def goDelete {α : Type} (m : List (String × α)) (k : String) :
    List (String × α) :=
  match m with
  | [] => []
  | (k', v') :: rest =>
    if k' = k then goDelete rest k else (k', v') :: goDelete rest k

/-- Go `m[k]` membership test (the `_, ok :=` form) for a `map[string]struct{}`
modelled as a list of keys. -/
def goHasKey (s : List String) (k : String) : Bool :=
  s.contains k

/-- Go map assignment `s[k] = struct{}{}` on a set-like map. -/
def goAddKey (s : List String) (k : String) : List String :=
  if s.contains k then s else s ++ [k]

/- ### ordered_group.go : RelativePosition -/

/-- `type RelativePosition int`; the constants below are the `iota` values. -/
abbrev RelativePosition : Type := Int

/-- `After RelativePosition = iota` (value 0). -/
def After : RelativePosition := (0 : Int)

/-- `Before` (value 1). -/
def Before : RelativePosition := (1 : Int)

/- ### ordered_group.go : relativeOrder -/

/-- `relativeOrder` provides ordering of items: `order []string`. -/
structure relativeOrder where
  order : List String
deriving DecidableEq, Repr

/-- Loop body of `relativeOrder.has`: scans `l`, whose head sits at index `i`
of the full slice, and returns the index of the first match, or `(0, false)`. -/
def hasAux (l : List String) (id : String) (i : Nat) : Nat × Bool :=
  match l with
  | [] => (0, false)
  | x :: xs => if x = id then (i, true) else hasAux xs id (i + 1)

/-- `func (s *relativeOrder) has(id string) (i int, found bool)`: linear scan
over `s.order`. -/
def relativeOrder.has (s : relativeOrder) (id : String) : Nat × Bool :=
  hasAux s.order id 0

/-- `func (s *relativeOrder) insert(i int, id string, pos RelativePosition) error`.
The Before arm is Go's append-shift-assign idiom, i.e. insertion at index `i`;
the After arm appends when `i == len(s.order)-1` (an `int` comparison) and
otherwise splices `id` in at index `i+1`. -/
def relativeOrder.insert (s : relativeOrder) (i : Nat) (id : String)
    (pos : RelativePosition) : Option String × relativeOrder :=
  if pos = Before then
    (none, ⟨s.order.take i ++ id :: s.order.drop i⟩)
  else if pos = After then
    if (i : Int) = (s.order.length : Int) - 1 then
      (none, ⟨s.order ++ [id]⟩)
    else
      (none, ⟨s.order.take (i + 1) ++ id :: s.order.drop (i + 1)⟩)
  else
    (some ("invalid position, " ++ toString (pos : Int)), s)

/-- `func (s *relativeOrder) Add(id string, pos RelativePosition) error`. -/
def relativeOrder.Add (s : relativeOrder) (id : String)
    (pos : RelativePosition) : Option String × relativeOrder :=
  if (s.has id).2 then
    (some ("already exists, " ++ id), s)
  else if pos = Before then
    s.insert 0 id Before
  else if pos = After then
    (none, ⟨s.order ++ [id]⟩)
  else
    (some ("invalid position, " ++ toString (pos : Int)), s)

/-- `func (s *relativeOrder) Insert(id, relativeTo string, pos RelativePosition) error`. -/
def relativeOrder.Insert (s : relativeOrder) (id relativeTo : String)
    (pos : RelativePosition) : Option String × relativeOrder :=
  if (s.has id).2 then
    (some ("already exists, " ++ id), s)
  else
    let (i, ok) := s.has relativeTo
    if ok then s.insert i id pos
    else (some ("not found, " ++ relativeTo), s)

/-- `func (s *relativeOrder) Swap(id, to string) error`: in-place replacement
`s.order[i] = to` (the Go parameter `to` is a reserved word in Lean and is
named `toID` here). -/
def relativeOrder.Swap (s : relativeOrder) (id toID : String) :
    Option String × relativeOrder :=
  let (i, ok) := s.has id
  if ¬ ok then
    (some ("not found, " ++ id), s)
  else if (s.has toID).2 ∧ id ≠ toID then
    (some ("already exists, " ++ toID), s)
  else
    (none, ⟨s.order.set i toID⟩)

/-- `func (s *relativeOrder) Remove(id string) error`: deletes the entry at the
found index, shifting later entries. -/
def relativeOrder.Remove (s : relativeOrder) (id : String) :
    Option String × relativeOrder :=
  let (i, ok) := s.has id
  if ¬ ok then
    (some ("not found, " ++ id), s)
  else
    (none, ⟨s.order.take i ++ s.order.drop (i + 1)⟩)

/-- `func (s *relativeOrder) List() []string`. -/
def relativeOrder.List (s : relativeOrder) : List String :=
  s.order

/-- `func (s *relativeOrder) Clear()`. -/
def relativeOrder.Clear (_ : relativeOrder) : relativeOrder :=
  ⟨[]⟩

/- ### ordered_group.go : orderedIDs -/

/-- The Go `ider` interface: anything exposing `ID() string`. -/
class Ider (α : Type) where
  ID : α → String

/-- `orderedIDs`: a relativeOrder plus `items map[string]ider` and
`slots map[string]struct{}`. -/
structure orderedIDs (α : Type) where
  order : relativeOrder
  items : List (String × α)
  slots : List String

/-- `func newOrderedIDs() *orderedIDs`. -/
def newOrderedIDs (α : Type) : orderedIDs α :=
  { order := ⟨[]⟩, items := [], slots := [] }

/-- `func (g *orderedIDs) IsSlot(id string) bool`. -/
def orderedIDs.IsSlot {α : Type} (g : orderedIDs α) (id : String) : Bool :=
  goHasKey g.slots id

/-- `func (g *orderedIDs) Add(m ider, pos RelativePosition) error`: skips the
order insertion when `id` is a slot, then binds `id -> m` in the item map. -/
def orderedIDs.Add {α : Type} [Ider α] (g : orderedIDs α) (m : α)
    (pos : RelativePosition) : Option String × orderedIDs α :=
  let id := Ider.ID m
  if id.length = 0 then
    (some "empty ID, ID must not be empty", g)
  else if ¬ g.IsSlot id then
    match g.order.Add id pos with
    | (some e, ord) => (some e, { g with order := ord })
    | (none, ord) =>
      (none, { g with order := ord, items := goInsert g.items id m })
  else
    (none, { g with items := goInsert g.items id m })

/-- `func (g *orderedIDs) AddSlot(id string, pos RelativePosition) error`. -/
def orderedIDs.AddSlot {α : Type} (g : orderedIDs α) (id : String)
    (pos : RelativePosition) : Option String × orderedIDs α :=
  if id.length = 0 then
    (some "empty ID, ID must not be empty", g)
  else
    match g.order.Add id pos with
    | (some e, ord) => (some e, { g with order := ord })
    | (none, ord) =>
      (none, { g with order := ord, slots := goAddKey g.slots id })

/-- `func (g *orderedIDs) Insert(m ider, relativeTo string, pos RelativePosition) error`. -/
def orderedIDs.Insert {α : Type} [Ider α] (g : orderedIDs α) (m : α)
    (relativeTo : String) (pos : RelativePosition) :
    Option String × orderedIDs α :=
  if (Ider.ID m).length = 0 then
    (some "insert ID must not be empty", g)
  else if relativeTo.length = 0 then
    (some "relative to ID must not be empty", g)
  else
    match g.order.Insert (Ider.ID m) relativeTo pos with
    | (some e, ord) => (some e, { g with order := ord })
    | (none, ord) =>
      (none, { g with order := ord, items := goInsert g.items (Ider.ID m) m })

/-- `func (g *orderedIDs) InsertSlot(id, relativeTo string, pos RelativePosition) error`. -/
def orderedIDs.InsertSlot {α : Type} (g : orderedIDs α) (id relativeTo : String)
    (pos : RelativePosition) : Option String × orderedIDs α :=
  if id.length = 0 then
    (some "slot ID must not be empty", g)
  else if relativeTo.length = 0 then
    (some "relative to ID must not be empty", g)
  else
    match g.order.Insert id relativeTo pos with
    | (some e, ord) => (some e, { g with order := ord })
    | (none, ord) =>
      (none, { g with order := ord, slots := goAddKey g.slots id })

/-- `func (g *orderedIDs) Get(id string) (ider, bool)`. -/
def orderedIDs.Get {α : Type} (g : orderedIDs α) (id : String) :
    Option α × Bool :=
  match goLookup g.items id with
  | some v => (some v, true)
  | none => (none, false)

/-- `func (g *orderedIDs) Swap(id string, m ider) (ider, error)`: `.error` is a
returned non-nil error; `.ok` carries `removed`, the previous item binding,
which is Go-nil (`none`) when `id` had no binding (an unfilled slot). -/
def orderedIDs.Swap {α : Type} [Ider α] (g : orderedIDs α) (id : String)
    (m : α) : Except String (Option α) × orderedIDs α :=
  if id.length = 0 then
    (.error "swap from ID must not be empty", g)
  else
    let iderID := Ider.ID m
    if iderID.length = 0 then
      (.error "swap to ID must not be empty", g)
    else if g.IsSlot id ∧ id ≠ iderID then
      (.error "swap to ID must match slot being swapped", g)
    else
      match g.order.Swap id iderID with
      | (some e, ord) => (.error e, { g with order := ord })
      | (none, ord) =>
        let removed := goLookup g.items id
        (.ok removed,
          { g with
            order := ord,
            items := goInsert (goDelete g.items id) iderID m })

/-- `func (g *orderedIDs) Remove(id string) error`: for a slot id the order is
left untouched and only the item binding is deleted. -/
def orderedIDs.Remove {α : Type} (g : orderedIDs α) (id : String) :
    Option String × orderedIDs α :=
  if id.length = 0 then
    (some "remove ID must not be empty", g)
  else if ¬ g.IsSlot id then
    match g.order.Remove id with
    | (some e, ord) => (some e, { g with order := ord })
    | (none, ord) => (none, { g with order := ord, items := goDelete g.items id })
  else
    (none, { g with items := goDelete g.items id })

/-- `func (g *orderedIDs) GetOrder() []interface{}`: the bound items in order,
skipping ids with no item binding (never-filled slots). -/
def orderedIDs.GetOrder {α : Type} (g : orderedIDs α) : List α :=
  (g.order.List).filterMap (fun id => goLookup g.items id)

/-- `func (g *orderedIDs) List() []string` (returns a copy of the order). -/
def orderedIDs.List {α : Type} (g : orderedIDs α) : List String :=
  g.order.List

/-- `func (g *orderedIDs) Clear()`. -/
def orderedIDs.Clear {α : Type} (g : orderedIDs α) : orderedIDs α :=
  { order := g.order.Clear, items := [], slots := [] }

/- ### step_deserialize.go -/

/-- `middleware.Handler`: `Handle(ctx, in interface{}) (out interface{}, metadata, err)`.
`Option V` models a Go `interface{}` value, `none` being the nil interface;
`M` models `middleware.Metadata`; `Ctx` models `context.Context`. -/
def Handler (V M Ctx : Type) : Type :=
  Ctx → Option V → Option V × M × Option String

/-- `DeserializeInput` struct. -/
structure DeserializeInput (V : Type) where
  Request : Option V

/-- `DeserializeOutput` struct; the zero value of an unset field is nil. -/
structure DeserializeOutput (V : Type) where
  RawResponse : Option V
  Result : Option V

/-- `DeserializeHandler` interface: `HandleDeserialize(ctx, in) (out, metadata, err)`. -/
def DeserializeHandler (V M Ctx : Type) : Type :=
  Ctx → DeserializeInput V →
    DeserializeOutput V × M × Option String

/-- `DeserializeMiddleware` interface: an `ID()` plus
`HandleDeserialize(ctx, in, next)`. -/
structure DeserializeMiddleware (V M Ctx : Type) where
  ID : String
  HandleDeserialize : Ctx → DeserializeInput V → DeserializeHandler V M Ctx →
    DeserializeOutput V × M × Option String

instance {V M Ctx : Type} : Ider (DeserializeMiddleware V M Ctx) :=
  ⟨DeserializeMiddleware.ID⟩

/-- `deserializeWrapHandler`: adapts the step's generic `next` handler,
storing its response only in the `RawResponse` field (`Result` stays nil). -/
def deserializeWrapHandler {V M Ctx : Type} (next : Handler V M Ctx) :
    DeserializeHandler V M Ctx :=
  fun ctx goIn =>
    let (resp, metadata, err) := next ctx goIn.Request
    ({ RawResponse := resp, Result := none }, metadata, err)

/-- `decoratedDeserializeHandler` struct `{Next; With}`: its
`HandleDeserialize` invokes `With` with `Next` as the next handler. -/
def decoratedDeserializeHandler {V M Ctx : Type}
    (withMW : DeserializeMiddleware V M Ctx)
    (next : DeserializeHandler V M Ctx) : DeserializeHandler V M Ctx :=
  fun ctx goIn => withMW.HandleDeserialize ctx goIn next

/-- `DeserializeStep`: the ordered grouping of DeserializeMiddleware. -/
structure DeserializeStep (V M Ctx : Type) where
  ids : orderedIDs (DeserializeMiddleware V M Ctx)

/-- `func NewDeserializeStep() *DeserializeStep`. -/
def NewDeserializeStep (V M Ctx : Type) : DeserializeStep V M Ctx :=
  ⟨newOrderedIDs _⟩

/-- `func (s *DeserializeStep) ID() string`. -/
def DeserializeStep.ID {V M Ctx : Type} (_ : DeserializeStep V M Ctx) : String :=
  "Deserialize stack step"

/-- `func (s *DeserializeStep) HandleMiddleware(ctx, in, next)`: snapshots
`GetOrder`, wraps `next`, decorates in reverse index order so the first
middleware of the order is outermost, invokes the chain, and returns only the
`Result` field of the step output. -/
def DeserializeStep.HandleMiddleware {V M Ctx : Type}
    (s : DeserializeStep V M Ctx) (ctx : Ctx) (goIn : Option V)
    (next : Handler V M Ctx) : Option V × M × Option String :=
  let order := s.ids.GetOrder
  let h : DeserializeHandler V M Ctx :=
    order.foldr (fun mw acc => decoratedDeserializeHandler mw acc)
      (deserializeWrapHandler next)
  let (res, metadata, err) := h ctx { Request := goIn }
  (res.Result, metadata, err)

/-- Outcome of a Go call that can return a value, return an error, or panic
at run time. -/
inductive GoResult (β : Type) where
  | ok (v : β) : GoResult β
  | err (e : String) : GoResult β
  | goPanic (msg : String) : GoResult β

/-- `func (s *DeserializeStep) Get(id string) (DeserializeMiddleware, bool)`. -/
def DeserializeStep.Get {V M Ctx : Type} (s : DeserializeStep V M Ctx)
    (id : String) : Option (DeserializeMiddleware V M Ctx) × Bool :=
  let (get, ok) := s.ids.Get id
  if ¬ ok then (none, false) else (get, ok)

/-- `func (s *DeserializeStep) Add(m DeserializeMiddleware, pos RelativePosition) error`. -/
def DeserializeStep.Add {V M Ctx : Type} (s : DeserializeStep V M Ctx)
    (m : DeserializeMiddleware V M Ctx) (pos : RelativePosition) :
    Option String × DeserializeStep V M Ctx :=
  let (e, ids) := s.ids.Add m pos
  (e, ⟨ids⟩)

/-- `func (s *DeserializeStep) AddSlot(id string, pos RelativePosition) error`. -/
def DeserializeStep.AddSlot {V M Ctx : Type} (s : DeserializeStep V M Ctx)
    (id : String) (pos : RelativePosition) :
    Option String × DeserializeStep V M Ctx :=
  let (e, ids) := s.ids.AddSlot id pos
  (e, ⟨ids⟩)

/-- `func (s *DeserializeStep) Insert(m, relativeTo, pos) error`. -/
def DeserializeStep.Insert {V M Ctx : Type} (s : DeserializeStep V M Ctx)
    (m : DeserializeMiddleware V M Ctx) (relativeTo : String)
    (pos : RelativePosition) : Option String × DeserializeStep V M Ctx :=
  let (e, ids) := s.ids.Insert m relativeTo pos
  (e, ⟨ids⟩)

/-- `func (s *DeserializeStep) InsertSlot(id, relativeTo, pos) error`. -/
def DeserializeStep.InsertSlot {V M Ctx : Type} (s : DeserializeStep V M Ctx)
    (id relativeTo : String) (pos : RelativePosition) :
    Option String × DeserializeStep V M Ctx :=
  let (e, ids) := s.ids.InsertSlot id relativeTo pos
  (e, ⟨ids⟩)

/-- `func (s *DeserializeStep) Swap(id string, m DeserializeMiddleware) (DeserializeMiddleware, error)`:
`removed, err := s.ids.Swap(id, m)` followed by the unchecked type assertion
`removed.(DeserializeMiddleware)`. When `removed` is the nil interface (the
swapped id was a never-filled slot) that assertion panics at run time, which
the embedding records as `GoResult.goPanic`; a non-nil `removed` always holds
a DeserializeMiddleware, because only the step's typed API stores items. -/
def DeserializeStep.Swap {V M Ctx : Type} (s : DeserializeStep V M Ctx)
    (id : String) (m : DeserializeMiddleware V M Ctx) :
    GoResult (DeserializeMiddleware V M Ctx) × DeserializeStep V M Ctx :=
  match s.ids.Swap id m with
  | (.error e, ids) => (.err e, ⟨ids⟩)
  | (.ok (some removed), ids) => (.ok removed, ⟨ids⟩)
  | (.ok none, ids) =>
    (.goPanic "interface conversion: interface is nil, not middleware.DeserializeMiddleware",
      ⟨ids⟩)

/-- `func (s *DeserializeStep) Remove(id string) error`. -/
def DeserializeStep.Remove {V M Ctx : Type} (s : DeserializeStep V M Ctx)
    (id : String) : Option String × DeserializeStep V M Ctx :=
  let (e, ids) := s.ids.Remove id
  (e, ⟨ids⟩)

/-- `func (s *DeserializeStep) Clear()`. -/
def DeserializeStep.Clear {V M Ctx : Type} (s : DeserializeStep V M Ctx) :
    DeserializeStep V M Ctx :=
  ⟨s.ids.Clear⟩

/-- `func (s *DeserializeStep) List() []string`. -/
def DeserializeStep.List {V M Ctx : Type} (s : DeserializeStep V M Ctx) :
    List String :=
  s.ids.List

/- ### Waiters codegen (src/unnamed/part_001): the generated Wait invoker -/

/-- The generated per-waiter options struct (`generateWaiterOptions`).
`I`/`O` are the operation input/output types, `AO` the element type of
`APIOptions`. `Retryable(ctx, input, output, err)` is modelled without the
opaque context argument. -/
structure WaiterOptions (I O AO : Type) where
  APIOptions : List AO
  MinDelay : Int
  MaxDelay : Int
  LogWaitAttempts : Bool
  Retryable : I → Option O → Option String → Bool × Option String

/-- External collaborators of the generated Wait function: the waiter name
baked into its messages, `smithywaiter.ComputeDelay`,
`smithytime.SleepWithContext` (none = returned nil, some = its error), and
the API client operation call, indexed by how many calls were already made so
successive attempts may observe different outcomes. -/
structure WaiterMachine (I O AO : Type) where
  waiterName : String
  computeDelay : Int → Int → Int → Int → Except String Int
  sleepWithContext : Int → Option String
  client : Nat → I → List AO → Option O × Option String

/-- Counts of the externally visible actions a Wait call performed. -/
structure WaitTrace where
  opCalls : Nat
  sleepCalls : Nat
  evalCalls : Nat
deriving DecidableEq, Repr

/-- Result of the generated Wait function. `fuelExhausted` is an embedding
artefact meaning the `for {}` loop was not unrolled far enough; it is not a
behavior of the Go code. -/
inductive WaitOutcome where
  | retOk : WaitOutcome
  | retErr (msg : String) : WaitOutcome
  | fuelExhausted : WaitOutcome
deriving DecidableEq, Repr

/-- One-for-one embedding of the generated `for {}` loop body of Wait
(`generateWaiterInvoker`): timeout check, backoff-and-sleep when
`attempt > 0` (with `remainingTime -= delay` taken before the sleep),
operation call, `options.Retryable` evaluation, and `attempt++` on retry. -/
def waitLoop {I O AO : Type} (w : WaiterMachine I O AO)
    (options : WaiterOptions I O AO) (params : I) :
    Nat → Int → Int → WaitTrace → WaitOutcome × WaitTrace
  | 0, _, _, tr => (.fuelExhausted, tr)
  | fuel + 1, remainingTime, attempt, tr =>
    if remainingTime ≤ 0 then
      (.retErr ("exceeded maximum wait time for " ++ w.waiterName ++ " waiter"), tr)
    else
      let sleepPhase : Except (WaitOutcome × WaitTrace) (Int × WaitTrace) :=
        if attempt > 0 then
          match w.computeDelay options.MinDelay options.MaxDelay remainingTime attempt with
          | .error e =>
            .error (.retErr ("error computing waiter delay, " ++ e), tr)
          | .ok delay =>
            let remainingTime := remainingTime - delay
            match w.sleepWithContext delay with
            | some e =>
              .error (.retErr ("request cancelled while waiting, " ++ e),
                { tr with sleepCalls := tr.sleepCalls + 1 })
            | none =>
              .ok (remainingTime, { tr with sleepCalls := tr.sleepCalls + 1 })
        else
          .ok (remainingTime, tr)
      match sleepPhase with
      | .error r => r
      | .ok (remainingTime, tr) =>
        let (out, err) := w.client tr.opCalls params options.APIOptions
        let tr := { tr with opCalls := tr.opCalls + 1 }
        let (retryable, err) := options.Retryable params out err
        let tr := { tr with evalCalls := tr.evalCalls + 1 }
        match err with
        | some e => (.retErr e, tr)
        | none =>
          if ¬ retryable then (.retOk, tr)
          else waitLoop w options params fuel remainingTime (attempt + 1) tr

/-- The generated `Wait(ctx, params, maxWaitTime, optFns...)` function.
NOTE (faithful to the emitted source): the `maxWaitTime == 0` check only
evaluates `fmt.Errorf("maximum wait time for waiter must be greater than
zero")` as a bare statement — the emitted block contains no `return`, so the
configuration error is constructed and discarded, and execution falls
through to the loop with `remainingTime = 0`. -/
def Wait {I O AO : Type} (w : WaiterMachine I O AO)
    (baseOptions : WaiterOptions I O AO) (params : I) (maxWaitTime : Int)
    (optFns : List (WaiterOptions I O AO → WaiterOptions I O AO))
    (fuel : Nat) : WaitOutcome × WaitTrace :=
  let _discardedConfigErr : Option String :=
    if maxWaitTime = 0 then
      some "maximum wait time for waiter must be greater than zero"
    else none
  let options := optFns.foldl (fun o fn => fn o) baseOptions
  let remainingTime := maxWaitTime
  waitLoop w options params fuel remainingTime 0 ⟨0, 0, 0⟩

/- ### Waiters codegen: the generated waiter state retryable function -/

/-- The dynamic value returned by `jmespath.Search`, restricted to the shapes
the generated comparators type-assert on. -/
inductive JValue where
  | str (s : String) : JValue
  | bool (b : Bool) : JValue
  | strList (l : List String) : JValue
  | other : JValue
deriving DecidableEq, Repr

/-- What Go's `%T` verb prints for the dynamic type of a `JValue`
(`other` stands in for every type the comparators do not assert on). -/
def JValue.goTypeName : JValue → String
  | .str _ => "string"
  | .bool _ => "bool"
  | .strList _ => "[]string"
  | .other => "interface"

/-- `strconv.ParseBool`. -/
def strconvParseBool (s : String) : Except String Bool :=
  if s = "1" ∨ s = "t" ∨ s = "T" ∨ s = "true" ∨ s = "TRUE" ∨ s = "True" then
    .ok true
  else if s = "0" ∨ s = "f" ∨ s = "F" ∨ s = "false" ∨ s = "FALSE" ∨ s = "False" then
    .ok false
  else
    .error ("strconv.ParseBool: parsing " ++ s ++ ": invalid syntax")

/-- `smithy.waiters.Acceptor` terminal states. -/
inductive AcceptorState where
  | success : AcceptorState
  | failure : AcceptorState
  | retry : AcceptorState
deriving DecidableEq, Repr

/-- `smithy.waiters.PathComparator` values handled by `writeWaiterComparator`. -/
inductive PathComparator where
  | stringEquals : PathComparator
  | booleanEquals : PathComparator
  | allStringEquals : PathComparator
  | anyStringEquals : PathComparator
deriving DecidableEq, Repr

/-- A non-nil Go error as the generated errorType matcher observes it:
whether `errors.As` matches a given modeled error shape name, and the
`ErrorCode()` of the error when it is a `smithy.APIError` (`none` when the
`errors.As(err, &apiErr)` assertion fails). -/
structure GoErr where
  modeledMatch : String → Bool
  apiErrorCode : Option String

/-- The acceptor matcher kinds `generateRetryable` emits code for. For
`errorType`, `modeled` records the codegen-time branch: whether the name was
found among the operation's modeled error shapes. -/
inductive Matcher where
  | output (path expected : String) (comparator : PathComparator) : Matcher
  | inputOutput (path expected : String) (comparator : PathComparator) : Matcher
  | success : Matcher
  | errorType (name : String) (modeled : Bool) : Matcher

/-- One waiter acceptor: matcher plus terminal state. -/
structure WaiterAcceptor where
  matcher : Matcher
  state : AcceptorState

/-- Outcome of the code emitted for one acceptor: either a `return r, e`
statement was executed, or control fell through to the next acceptor. -/
inductive EvalOutcome where
  | ret (retry : Bool) (err : Option String) : EvalOutcome
  | fallthru : EvalOutcome
deriving DecidableEq, Repr

/-- The `return` statement `writeMatchedAcceptorReturn` emits for a matched
acceptor's terminal state. -/
def matchedAcceptorReturn : AcceptorState → EvalOutcome
  | .success => .ret false none
  | .failure => .ret false (some "waiter state transitioned to Failure")
  | .retry => .ret true none

/-- Semantics of the comparator code emitted by `writeWaiterComparator`,
given the extracted `actual` value and the modeled `expected` literal. -/
def waiterComparator (comparator : PathComparator) (state : AcceptorState)
    (actual : JValue) (expected : String) : EvalOutcome :=
  match comparator with
  | .stringEquals =>
    match actual with
    | .str value =>
      if value = expected then matchedAcceptorReturn state else .fallthru
    | v =>
      .ret false (some ("waiter comparator expected string value got " ++ v.goTypeName))
  | .booleanEquals =>
    match strconvParseBool expected with
    | .error e => .ret false (some ("error parsing boolean from string " ++ e))
    | .ok bv =>
      match actual with
      | .bool value =>
        if value = bv then matchedAcceptorReturn state else .fallthru
      | v =>
        .ret false (some ("waiter comparator expected bool value got " ++ v.goTypeName))
  | .allStringEquals =>
    match actual with
    | .strList listOfValues =>
      let m := true
      let m := if listOfValues.length = 0 then false else m
      let m := listOfValues.foldl (fun acc v => if v ≠ expected then false else acc) m
      if m then matchedAcceptorReturn state else .fallthru
    | v =>
      .ret false (some ("waiter comparator expected []string value got " ++ v.goTypeName))
  | .anyStringEquals =>
    match actual with
    | .strList listOfValues =>
      if listOfValues.any (fun v => v = expected) then
        matchedAcceptorReturn state
      else .fallthru
    | v =>
      .ret false (some ("waiter comparator expected []string value got " ++ v.goTypeName))

/-- The `jmespath.Search` collaborator: plain output search, and search over
the synthetic `struct{Input; Output}` value the inputOutput matcher builds. -/
structure PathSearcher (I O : Type) where
  search : String → Option O → Except String JValue
  searchInputOutput : String → I → Option O → Except String JValue

/-- Semantics of the code `generateRetryable` emits for one acceptor, given
the operation's `(input, output, err)`. -/
def evalAcceptor {I O : Type} (ps : PathSearcher I O) (input : I)
    (output : Option O) (err : Option GoErr) (a : WaiterAcceptor) :
    EvalOutcome :=
  match a.matcher with
  | .output path expected comparator =>
    match err with
    | none =>
      match ps.search path output with
      | .error e => .ret false (some ("error evaluating waiter state: " ++ e))
      | .ok pathValue => waiterComparator comparator a.state pathValue expected
    | some _ => .fallthru
  | .inputOutput path expected comparator =>
    match err with
    | none =>
      match ps.searchInputOutput path input output with
      | .error e => .ret false (some ("error evaluating waiter state: " ++ e))
      | .ok pathValue => waiterComparator comparator a.state pathValue expected
    | some _ => .fallthru
  | .success =>
    match err with
    | none => matchedAcceptorReturn a.state
    | some _ => .fallthru
  | .errorType name modeled =>
    match err with
    | some e =>
      if modeled then
        if e.modeledMatch name then matchedAcceptorReturn a.state else .fallthru
      else
        match e.apiErrorCode with
        | none => .ret false (some "expected err to be of type smithy.APIError")
        | some code =>
          if name = code then matchedAcceptorReturn a.state else .fallthru
    | none => .fallthru

/-- The generated `<name>StateRetryable(ctx, input, output, err)` function:
the emitted acceptor blocks run in declaration order, the first executed
`return` wins, and the function ends with `return true, nil`. -/
def stateRetryable {I O : Type} (ps : PathSearcher I O)
    (acceptors : List WaiterAcceptor) (input : I) (output : Option O)
    (err : Option GoErr) : Bool × Option String :=
  match acceptors with
  | [] => (true, none)
  | a :: rest =>
    match evalAcceptor ps input output err a with
    | .ret r e => (r, e)
    | .fallthru => stateRetryable ps rest input output err

/- ### Helper lemmas about the embedded primitives -/

/-- A concrete item carrying only an id, used to instantiate the registry. -/
structure TestItem where
  name : String
deriving DecidableEq, Repr

instance : Ider TestItem := ⟨TestItem.name⟩

/-- A concrete registry with slot "S" already filled by an item: AddSlot "S"
then Add of an item with id "S". Used by the C10 witness. -/
def c10Reg : orderedIDs TestItem :=
  ((((newOrderedIDs TestItem).AddSlot "S" After).2).Add (TestItem.mk "S") After).2

/-- A concrete registry whose only entry is the never-filled slot "X". -/
def c3Reg : orderedIDs TestItem :=
  (((newOrderedIDs TestItem).AddSlot "X" After).2)

/-- An identity-behavior deserialize middleware with id "X". -/
def c2MW : DeserializeMiddleware Unit Unit Unit :=
  { ID := "X", HandleDeserialize := fun ctx goIn next => next ctx goIn }

/-- A deserialize step whose only entry is the never-filled slot "X". -/
def c2Step : DeserializeStep Unit Unit Unit :=
  ((NewDeserializeStep Unit Unit Unit).AddSlot "X" After).2

/-- A middleware for the C4 witness that appends its name to the request
trace and delegates to the next handler. -/
def traceMW (name : String) : DeserializeMiddleware (List String) Unit Unit :=
  { ID := name,
    HandleDeserialize := fun ctx goIn next =>
      next ctx { Request := some (goIn.Request.getD [] ++ [name]) } }

/-- A short-circuiting middleware for the C4 witness: records its name and
returns without calling the next handler. -/
def stopMW (name : String) : DeserializeMiddleware (List String) Unit Unit :=
  { ID := name,
    HandleDeserialize := fun _ goIn _ =>
      ({ RawResponse := none, Result := some (goIn.Request.getD [] ++ [name]) },
        (), none) }

/-- Terminal handler for the C4 witness: records "terminal" in its response. -/
def termHandler : Handler (List String) Unit Unit :=
  fun _ req => (some (req.getD [] ++ ["terminal"]), (), none)

/-- A second terminal handler, used to show the terminal is not invoked. -/
def termHandler2 : Handler (List String) Unit Unit :=
  fun _ req => (some (req.getD [] ++ ["terminal2"]), (), none)

/-- Concrete step holding [A, B, C] with B short-circuiting. -/
def c4Step : DeserializeStep (List String) Unit Unit :=
  ((((NewDeserializeStep (List String) Unit Unit).Add (traceMW "A") After).2.Add
    (stopMW "B") After).2.Add (traceMW "C") After).2

/-- The same step but with a different third middleware. -/
def c4StepAlt : DeserializeStep (List String) Unit Unit :=
  ((((NewDeserializeStep (List String) Unit Unit).Add (traceMW "A") After).2.Add
    (stopMW "B") After).2.Add (traceMW "D") After).2

/-- Path searcher for the C8 witness: every search yields an empty list. -/
def c8PS : PathSearcher Unit Unit :=
  { search := fun _ _ => Except.ok (JValue.strList []),
    searchInputOutput := fun _ _ _ => Except.ok (JValue.strList []) }

theorem string_length_eq_zero_iff (s : String) : s.length = 0 ↔ s = "" := by
  constructor
  · intro h
    cases s with
    | mk data =>
      have hdata : data.length = 0 := h
      cases data with
      | nil => rfl
      | cons a l => simp at hdata
  · intro h; subst h; rfl

theorem string_append_ne_of_head_ne {a b : String} (x y : String)
    {ca cb : Char} {la lb : List Char}
    (ha : a.data = ca :: la) (hb : b.data = cb :: lb) (hc : ca ≠ cb) :
    a ++ x ≠ b ++ y := by
  intro h
  have hd2 : a.data ++ x.data = b.data ++ y.data := congrArg String.data h
  rw [ha, hb] at hd2
  simp at hd2
  exact hc hd2.1

theorem hasAux_false_iff (l : List String) (id : String) :
    ∀ n, (hasAux l id n).2 = false ↔ id ∉ l := by
  induction l with
  | nil => intro n; simp [hasAux]
  | cons x xs ih =>
    intro n
    by_cases hx : x = id
    · subst hx
      simp [hasAux]
    · simp [hasAux, hx, ih (n + 1), Ne.symm hx]

theorem hasAux_true_spec (l : List String) (id : String) :
    ∀ n i, hasAux l id n = (i, true) → n ≤ i ∧ i - n < l.length ∧ l[i - n]? = some id := by
  induction l with
  | nil => intro n i h; simp [hasAux] at h
  | cons x xs ih =>
    intro n i h
    by_cases hx : x = id
    · subst hx
      have hni : n = i := by simpa [hasAux] using congrArg Prod.fst h
      subst hni
      simp
    · have h' : hasAux xs id (n + 1) = (i, true) := by simpa [hasAux, hx] using h
      obtain ⟨h1, h2, h3⟩ := ih (n + 1) i h'
      refine ⟨by omega, by simp; omega, ?_⟩
      have hin : i - n = (i - (n + 1)) + 1 := by omega
      rw [hin]
      simpa using h3

theorem has_spec (s : relativeOrder) (id : String) (i : Nat)
    (h : s.has id = (i, true)) : i < s.order.length ∧ s.order[i]? = some id := by
  obtain ⟨_, h2, h3⟩ := hasAux_true_spec s.order id 0 i h
  simpa using ⟨h2, h3⟩

theorem has_true_of_mem (s : relativeOrder) (id : String) (h : id ∈ s.order) :
    (s.has id).2 = true := by
  cases hb : (s.has id).2 with
  | true => rfl
  | false =>
    exact absurd ((hasAux_false_iff s.order id 0).1 hb) (by simpa using h)

theorem has_false_of_not_mem (s : relativeOrder) (id : String) (h : id ∉ s.order) :
    (s.has id).2 = false :=
  (hasAux_false_iff s.order id 0).2 h

theorem goLookup_goInsert_self {α : Type} (m : List (String × α)) (k : String) (v : α) :
    goLookup (goInsert m k v) k = some v := by
  induction m with
  | nil => simp [goInsert, goLookup]
  | cons p rest ih =>
    obtain ⟨k', v'⟩ := p
    by_cases h : k' = k <;> simp [goInsert, goLookup, h, ih]

theorem goLookup_goInsert_ne {α : Type} (m : List (String × α)) (k k' : String)
    (v : α) (h : k' ≠ k) : goLookup (goInsert m k v) k' = goLookup m k' := by
  induction m with
  | nil => simp [goInsert, goLookup, Ne.symm h]
  | cons p rest ih =>
    obtain ⟨k0, v0⟩ := p
    by_cases h0 : k0 = k
    · subst h0
      simp [goInsert, goLookup, Ne.symm h]
    · simp [goInsert, goLookup, h0, ih]

theorem relativeOrder_Add_dup (s : relativeOrder) (id : String)
    (pos : RelativePosition) (hmem : id ∈ s.order) :
    s.Add id pos = (some ("already exists, " ++ id), s) := by
  unfold relativeOrder.Add
  rw [has_true_of_mem s id hmem]
  simp

theorem relativeOrder_Add_of_not_mem (s : relativeOrder) (id : String)
    (pos : RelativePosition) (hmem : id ∉ s.order) :
    s.Add id pos =
      if pos = Before then (none, ⟨id :: s.order⟩)
      else if pos = After then (none, ⟨s.order ++ [id]⟩)
      else (some ("invalid position, " ++ toString (pos : Int)), s) := by
  unfold relativeOrder.Add relativeOrder.insert
  rw [has_false_of_not_mem s id hmem]
  simp

/- ### Claim theorems -/

/-- C5: For every registry state and every Add of an id already present in
the order and not registered as a slot, the Add call returns an error and
the registry is exactly as before the call: the state, and hence List(),
the item bindings and the slot set, are all unchanged (no partial
mutation). -/
theorem add_duplicate_fails_without_mutation {α : Type} [Ider α]
    (g : orderedIDs α) (m : α) (pos : RelativePosition)
    (hmem : Ider.ID m ∈ g.order.order) (hns : g.IsSlot (Ider.ID m) = false) :
    (g.Add m pos).1.isSome = true
  ∧ (g.Add m pos).2 = g
  ∧ (g.Add m pos).2.List = g.List
  ∧ (g.Add m pos).2.items = g.items
  ∧ (g.Add m pos).2.slots = g.slots := by
  have hA := relativeOrder_Add_dup g.order (Ider.ID m) pos hmem
  unfold orderedIDs.Add
  by_cases h0 : (Ider.ID m).length = 0
  · simp [h0]
  · simp [h0, hns, hA]

/-- C5 witness: a concrete registry with item id "A" present and not a slot. -/
theorem add_duplicate_fails_without_mutation_witness :
    ("A" ∈ (((newOrderedIDs TestItem).Add (TestItem.mk "A") After).2).order.order
      ∧ (((newOrderedIDs TestItem).Add (TestItem.mk "A") After).2).IsSlot "A" = false)
  ∧ (((((newOrderedIDs TestItem).Add (TestItem.mk "A") After).2).Add (TestItem.mk "A") Before).1.isSome = true
  ∧ ((((newOrderedIDs TestItem).Add (TestItem.mk "A") After).2).Add (TestItem.mk "A") Before).2
      = ((newOrderedIDs TestItem).Add (TestItem.mk "A") After).2
  ∧ ((((newOrderedIDs TestItem).Add (TestItem.mk "A") After).2).Add (TestItem.mk "A") Before).2.List
      = (((newOrderedIDs TestItem).Add (TestItem.mk "A") After).2).List
  ∧ ((((newOrderedIDs TestItem).Add (TestItem.mk "A") After).2).Add (TestItem.mk "A") Before).2.items
      = (((newOrderedIDs TestItem).Add (TestItem.mk "A") After).2).items
  ∧ ((((newOrderedIDs TestItem).Add (TestItem.mk "A") After).2).Add (TestItem.mk "A") Before).2.slots
      = (((newOrderedIDs TestItem).Add (TestItem.mk "A") After).2).slots) :=
  ⟨⟨by decide, by decide⟩,
    add_duplicate_fails_without_mutation
      (((newOrderedIDs TestItem).Add (TestItem.mk "A") After).2)
      (TestItem.mk "A") Before (by decide) (by decide)⟩

/-- C10: Add returns the duplicate-id error exactly when the (non-empty) id
is already in the order and is not a slot; for a slot id, Add always
succeeds — even if the slot was already filled — leaving the order
unchanged and rebinding the id to the new item. -/
theorem add_duplicate_iff_and_slot_refill {α : Type} [Ider α]
    (g : orderedIDs α) (m : α) (pos : RelativePosition)
    (hne : Ider.ID m ≠ "") :
    ((g.Add m pos).1 = some ("already exists, " ++ Ider.ID m)
       ↔ (Ider.ID m ∈ g.order.order ∧ g.IsSlot (Ider.ID m) = false))
  ∧ (g.IsSlot (Ider.ID m) = true →
       (g.Add m pos).1 = none
     ∧ (g.Add m pos).2.List = g.List
     ∧ goLookup (g.Add m pos).2.items (Ider.ID m) = some m) := by
  have h0 : ¬ (Ider.ID m).length = 0 := by
    rw [string_length_eq_zero_iff]; exact hne
  constructor
  · by_cases hs : g.IsSlot (Ider.ID m) = true
    · constructor
      · intro h
        exfalso
        unfold orderedIDs.Add at h
        simp [h0, hs] at h
      · rintro ⟨_, hfalse⟩
        rw [hs] at hfalse
        cases hfalse
    · have hs' : g.IsSlot (Ider.ID m) = false := by
        simpa using hs
      by_cases hmem : Ider.ID m ∈ g.order.order
      · have hA := relativeOrder_Add_dup g.order (Ider.ID m) pos hmem
        unfold orderedIDs.Add
        simp [h0, hs', hA, hmem]
      · have hA := relativeOrder_Add_of_not_mem g.order (Ider.ID m) pos hmem
        constructor
        · intro h
          exfalso
          unfold orderedIDs.Add at h
          simp only [h0, if_false, hs'] at h
          rw [hA] at h
          by_cases hb : pos = Before
          · simp [hb] at h
          · by_cases ha : pos = After
            · simp [hb, ha, After, Before] at h
            · simp [hb, ha] at h
              exact string_append_ne_of_head_ne (toString (pos : Int)) (Ider.ID m)
                (rfl : "invalid position, ".data = 'i' :: "nvalid position, ".data)
                (rfl : "already exists, ".data = 'a' :: "lready exists, ".data)
                (by decide) h
        · rintro ⟨hmem', _⟩
          exact absurd hmem' hmem
  · intro hs
    unfold orderedIDs.Add
    simp [h0, hs, orderedIDs.List, relativeOrder.List, goLookup_goInsert_self]

/-- C10 witness: a filled slot "S"; re-Add with the same id succeeds,
keeps the order, and rebinds; and the duplicate-error iff holds there. -/
theorem add_duplicate_iff_and_slot_refill_witness :
    ((c10Reg.Add (TestItem.mk "S") Before).1
        = some ("already exists, " ++ Ider.ID (TestItem.mk "S"))
       ↔ (Ider.ID (TestItem.mk "S") ∈ c10Reg.order.order
          ∧ c10Reg.IsSlot (Ider.ID (TestItem.mk "S")) = false))
  ∧ (c10Reg.IsSlot (Ider.ID (TestItem.mk "S")) = true →
       (c10Reg.Add (TestItem.mk "S") Before).1 = none
     ∧ (c10Reg.Add (TestItem.mk "S") Before).2.List = c10Reg.List
     ∧ goLookup (c10Reg.Add (TestItem.mk "S") Before).2.items
         (Ider.ID (TestItem.mk "S")) = some (TestItem.mk "S")) :=
  add_duplicate_iff_and_slot_refill c10Reg (TestItem.mk "S") Before (by decide)

/-- C3 counterexample: on a registry where "X" is registered as a slot,
Remove("X") returns successfully, yet List() still contains "X" — the slot
does not vacate its position as the claim states. -/
theorem remove_slot_counterexample :
    c3Reg.IsSlot "X" = true
  ∧ (c3Reg.Remove "X").1 = none
  ∧ "X" ∈ (c3Reg.Remove "X").2.List := by
  refine ⟨rfl, rfl, ?_⟩
  decide

/-- C3 amended: for every registry and every id currently registered as a
slot, Remove(id) succeeds but removes only the item binding; the id keeps
its position in the order: List() is unchanged, the id is still a slot, and
a later Add of an item with the same id fills the slot in place — List()
stays the same, so the id sits at its old position, not a new one. -/
theorem remove_slot_keeps_position {α : Type} [Ider α]
    (g : orderedIDs α) (id : String)
    (hslot : g.IsSlot id = true) (hne : id ≠ "") :
    (g.Remove id).1 = none
  ∧ (g.Remove id).2.List = g.List
  ∧ (g.Remove id).2.IsSlot id = true
  ∧ ∀ (m : α) (pos : RelativePosition), Ider.ID m = id →
      ((g.Remove id).2.Add m pos).1 = none
    ∧ ((g.Remove id).2.Add m pos).2.List = g.List := by
  have h0 : ¬ id.length = 0 := by rw [string_length_eq_zero_iff]; exact hne
  have hrem : g.Remove id = (none, { g with items := goDelete g.items id }) := by
    unfold orderedIDs.Remove
    simp [h0, hslot]
  refine ⟨by rw [hrem], by rw [hrem]; rfl, by rw [hrem]; exact hslot, ?_⟩
  intro m pos hm
  have h0' : ¬ (Ider.ID m).length = 0 := by rw [hm]; exact h0
  have hslot' : ({ g with items := goDelete g.items id } : orderedIDs α).IsSlot (Ider.ID m) = true := by
    rw [hm]; exact hslot
  rw [hrem]
  unfold orderedIDs.Add
  simp [h0', hslot', orderedIDs.List, relativeOrder.List]

/-- C3 amended witness: the concrete slot-only registry. -/
theorem remove_slot_keeps_position_witness :
    (c3Reg.Remove "X").1 = none
  ∧ (c3Reg.Remove "X").2.List = c3Reg.List
  ∧ (c3Reg.Remove "X").2.IsSlot "X" = true
  ∧ ((c3Reg.Remove "X").2.Add (TestItem.mk "X") Before).1 = none
  ∧ ((c3Reg.Remove "X").2.Add (TestItem.mk "X") Before).2.List = c3Reg.List := by
  have h := remove_slot_keeps_position c3Reg "X" (by decide) (by decide)
  exact ⟨h.1, h.2.1, h.2.2.1, (h.2.2.2 (TestItem.mk "X") Before rfl).1,
    (h.2.2.2 (TestItem.mk "X") Before rfl).2⟩

/-- C2 counterexample: with id "X" reserved via AddSlot and never filled,
Swap("X", item with ID "X") succeeds but the removed value it returns is the
nil interface — not a non-nil no-op placeholder — and DeserializeStep.Swap
on that slot panics on its type assertion instead of returning without
failure. -/
theorem swap_unfilled_slot_counterexample :
    (c2Step.ids.Swap "X" c2MW).1 = Except.ok none
  ∧ (c2Step.Swap "X" c2MW).1
      = GoResult.goPanic
          "interface conversion: interface is nil, not middleware.DeserializeMiddleware" := by
  exact ⟨rfl, rfl⟩

/-- C2 amended: for every registry in which id was reserved via AddSlot and
never filled (id is a slot, present in the order, with no item binding),
Swap(id, m) with m.ID() = id succeeds at the orderedIDs layer and returns
the nil interface (none) as the previously-bound item — there is no non-nil
no-op placeholder — and DeserializeStep.Swap on such a slot panics on its
unchecked type assertion of that nil value rather than returning without
failure. -/
theorem swap_unfilled_slot_returns_nil_and_step_panics {V M Ctx : Type}
    (g : orderedIDs (DeserializeMiddleware V M Ctx)) (id : String)
    (m : DeserializeMiddleware V M Ctx)
    (_hslot : g.IsSlot id = true)
    (hin : (g.order.has id).2 = true)
    (hunfilled : goLookup g.items id = none)
    (hid : m.ID = id) (hne : id ≠ "") :
    (g.Swap id m).1 = Except.ok none
  ∧ ((⟨g⟩ : DeserializeStep V M Ctx).Swap id m).1
      = GoResult.goPanic
          "interface conversion: interface is nil, not middleware.DeserializeMiddleware" := by
  have h0 : ¬ id.length = 0 := by rw [string_length_eq_zero_iff]; exact hne
  have hid' : Ider.ID m = id := hid
  have hOrderSwap : g.order.Swap id id
      = (none, ⟨g.order.order.set (g.order.has id).1 id⟩) := by
    unfold relativeOrder.Swap
    rcases hpair : g.order.has id with ⟨i, ok⟩
    have hok : ok = true := by rw [hpair] at hin; exact hin
    subst hok
    simp
  have hSwap : g.Swap id m = (Except.ok none,
      { g with
        order := ⟨g.order.order.set (g.order.has id).1 id⟩,
        items := goInsert (goDelete g.items id) id m }) := by
    unfold orderedIDs.Swap
    simp [h0, hid', hOrderSwap, hunfilled]
  constructor
  · rw [hSwap]
  · simp [DeserializeStep.Swap, hSwap]

/-- C2 amended witness: the concrete slot-only step. -/
theorem swap_unfilled_slot_returns_nil_and_step_panics_witness :
    (c2Step.ids.Swap "X" c2MW).1 = Except.ok none
  ∧ (c2Step.Swap "X" c2MW).1
      = GoResult.goPanic
          "interface conversion: interface is nil, not middleware.DeserializeMiddleware" := by
  have h := swap_unfilled_slot_returns_nil_and_step_panics
    c2Step.ids "X" c2MW rfl rfl rfl rfl (by decide)
  exact h

/-- C6: for a fresh id and an anchor X sitting at index i at insertion time,
Add(id, Before) places id at index 0, Add(id, After) appends it at the end,
Insert(id, X, After) places id immediately after X, and Insert(id, X,
Before) places it immediately before X; each operation succeeds. -/
theorem relative_order_insertion_contract (s : relativeOrder) (id X : String)
    (i : Nat) (hfresh : (s.has id).2 = false) (hX : s.has X = (i, true)) :
    s.Add id Before = (none, ⟨id :: s.order⟩)
  ∧ s.Add id After = (none, ⟨s.order ++ [id]⟩)
  ∧ s.Insert id X After
      = (none, ⟨s.order.take (i + 1) ++ id :: s.order.drop (i + 1)⟩)
  ∧ s.Insert id X Before
      = (none, ⟨s.order.take i ++ id :: s.order.drop i⟩) := by
  have hmem : id ∉ s.order := (hasAux_false_iff s.order id 0).1 hfresh
  obtain ⟨hlen, _⟩ := has_spec s X i hX
  have hInsertEq : ∀ pos, s.Insert id X pos = s.insert i id pos := by
    intro pos
    unfold relativeOrder.Insert
    rw [show s.has id = ((s.has id).1, false) from by
          rcases h : s.has id with ⟨a, b⟩
          rw [h] at hfresh
          simp at hfresh
          simp [hfresh], hX]
    simp
  refine ⟨?_, ?_, ?_, ?_⟩
  · rw [relativeOrder_Add_of_not_mem s id Before hmem]
    simp
  · rw [relativeOrder_Add_of_not_mem s id After hmem]
    simp [After, Before]
  · rw [hInsertEq After]
    unfold relativeOrder.insert
    rw [if_neg (by decide : ¬ (After = Before)), if_pos rfl]
    by_cases hi : (i : Int) = (s.order.length : Int) - 1
    · rw [if_pos hi]
      have hlen' : i + 1 = s.order.length := by omega
      rw [hlen', List.take_length, List.drop_length]
    · rw [if_neg hi]
  · rw [hInsertEq Before]
    unfold relativeOrder.insert
    simp [Before]

/-- C6 witness: order ["A", "X", "B"], anchor "X" at index 1, fresh id "N". -/
theorem relative_order_insertion_contract_witness :
    relativeOrder.Add ⟨["A", "X", "B"]⟩ "N" Before = (none, ⟨["N", "A", "X", "B"]⟩)
  ∧ relativeOrder.Add ⟨["A", "X", "B"]⟩ "N" After = (none, ⟨["A", "X", "B", "N"]⟩)
  ∧ relativeOrder.Insert ⟨["A", "X", "B"]⟩ "N" "X" After = (none, ⟨["A", "X", "N", "B"]⟩)
  ∧ relativeOrder.Insert ⟨["A", "X", "B"]⟩ "N" "X" Before = (none, ⟨["A", "N", "X", "B"]⟩) :=
  relative_order_insertion_contract ⟨["A", "X", "B"]⟩ "N" "X" 1 (by decide) (by decide)

/-- C7: Swap(id, toID) with id present at index i and toID not present
elsewhere succeeds and replaces id with toID in place: the order's length is
unchanged, every other index holds its previous entry, and index i now
holds toID. -/
theorem swap_preserves_other_positions (s : relativeOrder) (id toID : String)
    (i : Nat) (hid : s.has id = (i, true))
    (hfresh : toID = id ∨ (s.has toID).2 = false) :
    (s.Swap id toID).1 = none
  ∧ (s.Swap id toID).2.List = s.List.set i toID
  ∧ (s.Swap id toID).2.List.length = s.List.length
  ∧ (∀ j, j ≠ i → (s.Swap id toID).2.List[j]? = s.List[j]?)
  ∧ (s.Swap id toID).2.List[i]? = some toID := by
  obtain ⟨hlen, _⟩ := has_spec s id i hid
  have hswap : s.Swap id toID = (none, ⟨s.order.set i toID⟩) := by
    unfold relativeOrder.Swap
    rw [hid]
    rcases hfresh with h | h
    · subst h
      simp
    · simp [h]
  refine ⟨by rw [hswap], by rw [hswap]; rfl, ?_, ?_, ?_⟩
  · rw [hswap]
    simp [relativeOrder.List]
  · intro j hj
    rw [hswap]
    simp only [relativeOrder.List]
    exact List.getElem?_set_ne (Ne.symm hj)
  · rw [hswap]
    simp [relativeOrder.List, List.getElem?_set, hlen]

/-- C7 witness: swapping "X" (index 1 of ["A", "X", "B"]) for fresh "Y". -/
theorem swap_preserves_other_positions_witness :
    (relativeOrder.Swap ⟨["A", "X", "B"]⟩ "X" "Y").1 = none
  ∧ (relativeOrder.Swap ⟨["A", "X", "B"]⟩ "X" "Y").2.List
      = (relativeOrder.List ⟨["A", "X", "B"]⟩).set 1 "Y"
  ∧ (relativeOrder.Swap ⟨["A", "X", "B"]⟩ "X" "Y").2.List.length
      = (relativeOrder.List ⟨["A", "X", "B"]⟩).length
  ∧ (∀ j, j ≠ 1 → (relativeOrder.Swap ⟨["A", "X", "B"]⟩ "X" "Y").2.List[j]?
      = (relativeOrder.List ⟨["A", "X", "B"]⟩)[j]?)
  ∧ (relativeOrder.Swap ⟨["A", "X", "B"]⟩ "X" "Y").2.List[1]? = some "Y" :=
  swap_preserves_other_positions ⟨["A", "X", "B"]⟩ "X" "Y" 1 (by decide)
    (Or.inr (by decide))

/-- Shared helper: HandleMiddleware expressed over a known GetOrder
snapshot `L`: the handler is the reverse-walk decoration of the wrap
adapter, and only the `Result` field of the step output is returned. -/
theorem handleMiddleware_of_getOrder {V M Ctx : Type}
    (s : DeserializeStep V M Ctx) (L : List (DeserializeMiddleware V M Ctx))
    (hs : s.ids.GetOrder = L) (ctx : Ctx) (goIn : Option V)
    (next : Handler V M Ctx) :
    s.HandleMiddleware ctx goIn next =
      (let r := (L.foldr (fun mw acc => decoratedDeserializeHandler mw acc)
          (deserializeWrapHandler next)) ctx { Request := goIn }
       (r.1.Result, r.2)) := by
  unfold DeserializeStep.HandleMiddleware
  rw [hs]

/-- C4: if the registry snapshot yields middleware [A, B, C], the chain
built by HandleMiddleware runs A first, with B, then C, then the wrapped
terminal handler as its continuation chain; and if B never invokes the next
handler it receives, the call's result does not depend on C or on the
terminal handler — neither is ever invoked. -/
theorem chain_invocation_order_and_short_circuit {V M Ctx : Type}
    (A B C C' : DeserializeMiddleware V M Ctx)
    (s s' : DeserializeStep V M Ctx)
    (hs : s.ids.GetOrder = [A, B, C])
    (hs' : s'.ids.GetOrder = [A, B, C']) :
    (∀ ctx goIn next,
      s.HandleMiddleware ctx goIn next =
        (let r := A.HandleDeserialize ctx { Request := goIn }
            (decoratedDeserializeHandler B
              (decoratedDeserializeHandler C (deserializeWrapHandler next)))
         (r.1.Result, r.2)))
  ∧ ((∀ ctx goIn h₁ h₂,
        B.HandleDeserialize ctx goIn h₁ = B.HandleDeserialize ctx goIn h₂) →
      ∀ ctx goIn next next',
        s.HandleMiddleware ctx goIn next = s'.HandleMiddleware ctx goIn next') := by
  constructor
  · intro ctx goIn next
    rw [handleMiddleware_of_getOrder s [A, B, C] hs]
    rfl
  · intro hB ctx goIn next next'
    rw [handleMiddleware_of_getOrder s [A, B, C] hs ctx goIn next,
        handleMiddleware_of_getOrder s' [A, B, C'] hs' ctx goIn next']
    have hk : decoratedDeserializeHandler B
          (decoratedDeserializeHandler C (deserializeWrapHandler next))
        = decoratedDeserializeHandler B
          (decoratedDeserializeHandler C' (deserializeWrapHandler next')) := by
      funext ctx2 goIn2
      exact hB ctx2 goIn2 _ _
    simp only [List.foldr_cons, List.foldr_nil]
    rw [hk]

/-- C4 witness: the concrete [A, B short-circuit, C] chain; the short-circuit
makes the result independent of C and the terminal, and the recorded trace
is ["A", "B"]. -/
theorem chain_invocation_order_and_short_circuit_witness :
    (c4Step.HandleMiddleware () (some []) termHandler =
       (let r := (traceMW "A").HandleDeserialize () { Request := some [] }
            (decoratedDeserializeHandler (stopMW "B")
              (decoratedDeserializeHandler (traceMW "C")
                (deserializeWrapHandler termHandler)))
        (r.1.Result, r.2)))
  ∧ c4Step.HandleMiddleware () (some []) termHandler
      = c4StepAlt.HandleMiddleware () (some []) termHandler2
  ∧ c4Step.HandleMiddleware () (some []) termHandler
      = (some ["A", "B"], (), none) := by
  have h := chain_invocation_order_and_short_circuit (traceMW "A") (stopMW "B")
    (traceMW "C") (traceMW "D") c4Step c4StepAlt rfl rfl
  exact ⟨h.1 () (some []) termHandler,
    h.2 (fun _ _ _ _ => rfl) () (some []) termHandler termHandler2, rfl⟩

/-- C9: a DeserializeStep with no registered middleware drops a successful
non-nil terminal response: the wrap adapter stores the response only in the
RawResponse field (Result stays nil), and HandleMiddleware returns only the
Result field, so the step's output value is nil although the response was
not. -/
theorem empty_step_drops_response {V M Ctx : Type}
    (s : DeserializeStep V M Ctx) (hempty : s.ids.GetOrder = [])
    (ctx : Ctx) (goIn : Option V) (next : Handler V M Ctx)
    (resp : Option V) (md : M)
    (hnext : next ctx goIn = (resp, md, none)) (hresp : resp ≠ none) :
    deserializeWrapHandler next ctx { Request := goIn }
      = ({ RawResponse := resp, Result := none }, md, none)
  ∧ resp ≠ none
  ∧ s.HandleMiddleware ctx goIn next = (none, md, none) := by
  refine ⟨?_, hresp, ?_⟩
  · unfold deserializeWrapHandler
    rw [hnext]
  · rw [handleMiddleware_of_getOrder s [] hempty]
    simp only [List.foldr_nil]
    unfold deserializeWrapHandler
    rw [hnext]

/-- C9 witness: an empty step over Unit payloads with a terminal returning
a non-nil response. -/
theorem empty_step_drops_response_witness :
    deserializeWrapHandler (fun (_ : Unit) (_ : Option Unit) => (some (), (), (none : Option String)))
        () { Request := none }
      = ({ RawResponse := some (), Result := none }, (), none)
  ∧ (some () : Option Unit) ≠ none
  ∧ (NewDeserializeStep Unit Unit Unit).HandleMiddleware () none
      (fun _ _ => (some (), (), none)) = (none, (), none) :=
  empty_step_drops_response (NewDeserializeStep Unit Unit Unit) rfl () none
    (fun _ _ => (some (), (), none)) (some ()) () rfl (by simp)

theorem string_append_ne_of_head_ne' {a b : String} (x : String)
    {ca cb : Char} {la lb : List Char}
    (ha : a.data = ca :: la) (hb : b.data = cb :: lb) (hc : ca ≠ cb) :
    a ++ x ≠ b := by
  intro h
  have hd : a.data ++ x.data = b.data := congrArg String.data h
  rw [ha, hb] at hd
  simp at hd
  exact hc hd.1

/-- C1 (defect in the emitted code): the generated Wait called with
maxWaitTime = 0 does return a non-nil error immediately — before any
operation attempt, sleep, or acceptor evaluation (the trace stays 0/0/0) —
but the error is the loop's "exceeded maximum wait time" timeout error,
not the configuration error: the emitted zero-check evaluates
fmt.Errorf as a bare statement and discards it, lacking a return. -/
theorem wait_zero_max_wait_time_times_out {I O AO : Type}
    (w : WaiterMachine I O AO) (baseOptions : WaiterOptions I O AO)
    (params : I)
    (optFns : List (WaiterOptions I O AO → WaiterOptions I O AO))
    (fuel : Nat) :
    Wait w baseOptions params 0 optFns (fuel + 1)
      = (WaitOutcome.retErr
          ("exceeded maximum wait time for " ++ w.waiterName ++ " waiter"),
         ⟨0, 0, 0⟩)
  ∧ ("exceeded maximum wait time for " ++ w.waiterName ++ " waiter")
      ≠ "maximum wait time for waiter must be greater than zero" := by
  constructor
  · unfold Wait waitLoop
    simp
  · exact string_append_ne_of_head_ne' " waiter"
      (rfl : ("exceeded maximum wait time for " ++ w.waiterName).data
        = 'e' :: ("xceeded maximum wait time for ".data ++ w.waiterName.data))
      (rfl : "maximum wait time for waiter must be greater than zero".data
        = 'm' :: "aximum wait time for waiter must be greater than zero".data)
      (by decide)

/-- C8: an acceptor whose AllStringEquals comparator extracts an empty
[]string never matches: its evaluation falls through (its terminal state is
never applied), removing it from an acceptor list leaves the verdict
unchanged, and if it is the only acceptor the verdict is the default retry
(retry = true, err = nil). -/
theorem all_string_equals_empty_never_matches {I O : Type}
    (ps : PathSearcher I O) (input : I) (output : Option O)
    (st : AcceptorState) (mk : Matcher)
    (pre post : List WaiterAcceptor)
    (h : (∃ path expected,
            mk = Matcher.output path expected PathComparator.allStringEquals
            ∧ ps.search path output = Except.ok (JValue.strList []))
       ∨ (∃ path expected,
            mk = Matcher.inputOutput path expected PathComparator.allStringEquals
            ∧ ps.searchInputOutput path input output
                = Except.ok (JValue.strList []))) :
    evalAcceptor ps input output none ⟨mk, st⟩ = EvalOutcome.fallthru
  ∧ stateRetryable ps (pre ++ ⟨mk, st⟩ :: post) input output none
      = stateRetryable ps (pre ++ post) input output none
  ∧ stateRetryable ps [⟨mk, st⟩] input output none = (true, none) := by
  have h1 : evalAcceptor ps input output none ⟨mk, st⟩ = EvalOutcome.fallthru := by
    rcases h with ⟨path, expected, hmk, hsearch⟩ | ⟨path, expected, hmk, hsearch⟩ <;>
      · subst hmk
        simp [evalAcceptor, hsearch, waiterComparator]
  have hcons : ∀ (a : WaiterAcceptor) (rest : List WaiterAcceptor),
      evalAcceptor ps input output none a = EvalOutcome.fallthru →
      stateRetryable ps (a :: rest) input output none
        = stateRetryable ps rest input output none := by
    intro a rest ha
    simp only [stateRetryable, ha]
  refine ⟨h1, ?_, ?_⟩
  · induction pre with
    | nil =>
      simpa using hcons ⟨mk, st⟩ post h1
    | cons a rest ih =>
      simp only [List.cons_append]
      cases hev : evalAcceptor ps input output none a with
      | ret r e => simp only [stateRetryable, hev]
      | fallthru =>
        simp only [stateRetryable, hev]
        exact ih
  · rw [hcons ⟨mk, st⟩ [] h1]
    rfl

/-- C8 witness: a concrete AllStringEquals acceptor over an empty extracted
list, surrounded by other acceptors. -/
theorem all_string_equals_empty_never_matches_witness :
    evalAcceptor c8PS () none none
        ⟨Matcher.output "Statuses" "ok" PathComparator.allStringEquals,
          AcceptorState.success⟩ = EvalOutcome.fallthru
  ∧ stateRetryable c8PS
        ([⟨Matcher.errorType "NotFound" false, AcceptorState.retry⟩]
          ++ ⟨Matcher.output "Statuses" "ok" PathComparator.allStringEquals,
               AcceptorState.success⟩
            :: [⟨Matcher.success, AcceptorState.failure⟩]) () none none
      = stateRetryable c8PS
          ([⟨Matcher.errorType "NotFound" false, AcceptorState.retry⟩]
            ++ [⟨Matcher.success, AcceptorState.failure⟩]) () none none
  ∧ stateRetryable c8PS
        [⟨Matcher.output "Statuses" "ok" PathComparator.allStringEquals,
           AcceptorState.success⟩] () none none = (true, none) :=
  all_string_equals_empty_never_matches c8PS () none AcceptorState.success
    (Matcher.output "Statuses" "ok" PathComparator.allStringEquals)
    [⟨Matcher.errorType "NotFound" false, AcceptorState.retry⟩]
    [⟨Matcher.success, AcceptorState.failure⟩]
    (Or.inl ⟨"Statuses", "ok", rfl, rfl⟩)
